import Mathlib

/-!
Shallow embedding of the `plain` lexer (src/token.rs and src/lexer.rs).

The source text is modelled as a `List Char` (the repository only exercises
ASCII input, where Rust's byte indices used by `self.input[start..end]`
coincide with the character indices used by `chars().nth`).  Rust panics
(`todo!()`, `expect`) are modelled as `Except.error` carrying the panic
message.  The `verbose` flag of `Lexer::advance` only controls debug
printing and is dropped.  `token.rs` declares its enum variants with
redundant `String` payloads while `lexer.rs` uses the kinds bare and pairs
them with a separate `literal` field (the commented-out `Token` struct in
token.rs); the embedding follows the lexer's usage: payload-free kinds plus
a `literal` field on `Token`.
-/

namespace Plain

/-- Token kinds, mirroring the variant list of the enum in src/token.rs. -/
inductive TokenType where
  | Character
  | Number
  | LeftParen
  | RightParen
  | RightBracket
  | LeftBracket
  | RightBrace
  | LeftBrace
  | Semicolon
  | Comma
  | Ampersand
  | Asperand
  | Carrot
  | Dollar
  | Pound
  | Tilde
  | Assignment
  | Asterisk
  | Bang
  | Equals
  | GreaterThan
  | LessThan
  | Minus
  | NotEquals
  | Percent
  | Plus
  | Slash
  | Define
  | Function
  | Let
  | True
  | False
  | If
  | Else
  | ElseIf
  | Return
  | Unknown
  | Identifier
  | Illegal
  | Whitespace
  | EOF
  deriving DecidableEq, Repr

/-- The keyword lookup of src/token.rs (`Token::keyword`): an exact-match
chain over the fixed table, falling back to `Identifier`. -/
def TokenType.keyword (s : List Char) : TokenType :=
  if s = ['f', 'u', 'n', 'c'] then .Function
  else if s = ['l', 'e', 't'] then .Let
  else if s = ['t', 'r', 'u', 'e'] then .True
  else if s = ['f', 'a', 'l', 's', 'e'] then .False
  else if s = ['i', 'f'] then .If
  else if s = ['e', 'l', 's', 'e'] then .Else
  else if s = ['e', 'l', 's', 'e', ' ', 'i', 'f'] then .ElseIf
  else if s = ['r', 'e', 't', 'u', 'r', 'n'] then .Return
  else .Identifier

/-- A token: a kind together with the literal text, as built by
`Token::new(token_type, literal)` in src/lexer.rs. -/
structure Token where
  token_type : TokenType
  literal : List Char
  deriving DecidableEq, Repr

/-- The lexer state of src/lexer.rs: the raw input, the index of the
current character, and the cached current character. -/
structure Lexer where
  input : List Char
  current : Nat
  character : Char
  deriving DecidableEq, Repr

/-- Embeds `Lexer::new`: caches `input.chars().nth(0)`; returns `None` when the
input has no first character. -/
def Lexer.new (input : List Char) : Option Lexer :=
  match input.get? 0 with
  | some character => some { input := input, current := 0, character := character }
  | none => none

/-- Embeds `Lexer::advance`: a no-op when `current + 1` would exceed the input
length, otherwise moves the cursor and re-caches the character at the new
position, `'\0'` when there is none. -/
def Lexer.advance (l : Lexer) : Lexer :=
  if l.current + 1 > l.input.length then l
  else
    { l with
      current := l.current + 1
      character := (l.input.get? (l.current + 1)).getD '\x00' }

/-- Rust `char::is_ascii_alphabetic`. -/
def isAsciiAlphabetic (c : Char) : Bool :=
  ('a' ≤ c && c ≤ 'z') || ('A' ≤ c && c ≤ 'Z')

/-- Rust `char::is_ascii_digit`. -/
def isAsciiDigit (c : Char) : Bool :=
  '0' ≤ c && c ≤ '9'

/-- The whitespace set of `Lexer::skip_whitespace`. -/
def isWs (c : Char) : Bool :=
  c = ' ' || c = '\t' || c = '\n' || c = '\r'

/-- The loop of `Lexer::skip_whitespace`, with fuel standing in for the
source's unbounded `loop`.  Each iteration reads `current_char()`
(recomputed from the cursor), panics via `expect` when it is `None`,
advances on whitespace and breaks otherwise.  The cursor strictly
increases on every iteration that continues, so fuel `input.length + 1`
is never exhausted by a run the source completes. -/
def skipWhitespaceFuel : Nat → Lexer → Except String Lexer
  | 0, _ => .error "fuel exhausted"
  | fuel + 1, l =>
    match l.input.get? l.current with
    | none => .error "Expected a valid whitespace character."
    | some c =>
      if isWs c then skipWhitespaceFuel fuel l.advance
      else .ok l

/-- Embeds `Lexer::skip_whitespace`. -/
def skipWhitespace (l : Lexer) : Except String Lexer :=
  skipWhitespaceFuel (l.input.length + 1) l

/-- The `while self.character.is_ascii_alphabetic()` loop of
`Lexer::read_identifier`.  The loop tests the cached character; when the
cursor can no longer move (`advance` is a no-op at the end of the buffer)
and the cached character is alphabetic the source loops forever, which
the fuel models as `none`. -/
def readIdentLoop : Nat → Lexer → Option Lexer
  | 0, _ => none
  | fuel + 1, l =>
    if isAsciiAlphabetic l.character then readIdentLoop fuel l.advance
    else some l

/-- Embeds `Lexer::read_identifier`: runs the alphabetic loop from `start`,
then returns `input[start..end]` together with the final state. -/
def readIdentifier (l : Lexer) : Option (List Char × Lexer) :=
  (readIdentLoop (l.input.length + 1) l).map fun l2 =>
    ((l.input.drop l.current).take (l2.current - l.current), l2)

/-- The `while self.character.is_ascii_digit()` loop of
`Lexer::read_number`, fueled like `readIdentLoop`. -/
def readNumberLoop : Nat → Lexer → Option Lexer
  | 0, _ => none
  | fuel + 1, l =>
    if isAsciiDigit l.character then readNumberLoop fuel l.advance
    else some l

/-- Embeds `Lexer::read_number`: runs the digit loop from `start`, then returns
`input[start..end]` together with the final state. -/
def readNumber (l : Lexer) : Option (List Char × Lexer) :=
  (readNumberLoop (l.input.length + 1) l).map fun l2 =>
    ((l.input.drop l.current).take (l2.current - l.current), l2)

/-- The `match self.character` dispatch of `Lexer::lex`, producing the
literal, the token type and the state before the trailing `advance`.
The `'a'..='z' | 'A'..='Z'` arm and the `'='` and `'!'` arms are
`todo!()` in the source and are modelled as panics; the
`is_ascii_alphabetic` test inside the catch-all arm is kept even though
it is shadowed by the first arm.  A `none` from a read loop marks the
source's nontermination and is surfaced as a distinguished error. -/
def classify (l1 : Lexer) : Except String (List Char × TokenType × Lexer) :=
  if isAsciiAlphabetic l1.character then .error "not yet implemented"
  else if l1.character = '(' then .ok ([l1.character], .LeftParen, l1)
  else if l1.character = ')' then .ok ([l1.character], .RightParen, l1)
  else if l1.character = '\x7b' then .ok ([l1.character], .LeftBrace, l1)
  else if l1.character = '\x7d' then .ok ([l1.character], .RightBrace, l1)
  else if l1.character = '[' then .ok ([l1.character], .LeftBracket, l1)
  else if l1.character = ']' then .ok ([l1.character], .RightBracket, l1)
  else if l1.character = '*' then .ok ([l1.character], .Asterisk, l1)
  else if l1.character = '>' then .ok ([l1.character], .GreaterThan, l1)
  else if l1.character = '<' then .ok ([l1.character], .LessThan, l1)
  else if l1.character = '-' then .ok ([l1.character], .Minus, l1)
  else if l1.character = '%' then .ok ([l1.character], .Percent, l1)
  else if l1.character = '+' then .ok ([l1.character], .Plus, l1)
  else if l1.character = '/' then .ok ([l1.character], .Slash, l1)
  else if l1.character = '=' then
    .error "not yet implemented: Implement `Equality` and `Assignment` tokenization"
  else if l1.character = '!' then
    .error "not yet implemented: Implement `Negated-Equality (or NotEquals)` tokenization"
  else if l1.character = '&' then .ok ([l1.character], .Ampersand, l1)
  else if l1.character = '@' then .ok ([l1.character], .Asperand, l1)
  else if l1.character = '^' then .ok ([l1.character], .Carrot, l1)
  else if l1.character = '$' then .ok ([l1.character], .Dollar, l1)
  else if l1.character = '#' then .ok ([l1.character], .Pound, l1)
  else if l1.character = '~' then .ok ([l1.character], .Tilde, l1)
  else if l1.character = ';' then .ok ([l1.character], .Semicolon, l1)
  else if l1.character = ',' then .ok ([l1.character], .Comma, l1)
  else if l1.character = '\x00' then .ok ([l1.character], .EOF, l1)
  else
    if isAsciiAlphabetic l1.character then
      match readIdentifier l1 with
      | some (lit, l2) => .ok (lit, TokenType.keyword lit, l2)
      | none => .error "read_identifier loop does not terminate"
    else if isAsciiDigit l1.character then
      match readNumber l1 with
      | some (lit, l2) => .ok (lit, .Number, l2)
      | none => .error "read_number loop does not terminate"
    else .ok ([l1.character], .Illegal, l1)

/-- Embeds `Lexer::lex`: skip whitespace, dispatch on the (cached) current
character, advance once more, and build the token. -/
def lex (l : Lexer) : Except String (Token × Lexer) :=
  match skipWhitespace l with
  | .error e => .error e
  | .ok l1 =>
    match classify l1 with
    | .error e => .error e
    | .ok (lit, tt, l2) => .ok ({ token_type := tt, literal := lit }, l2.advance)

/-- Embeds `Lexer::tokenize`: returns `none` without touching the state when the
cached character is `'\0'`, otherwise delegates to `lex`. -/
def tokenize (l : Lexer) : Except String (Option Token × Lexer) :=
  if l.character = '\x00' then .ok (none, l)
  else
    match lex l with
    | .ok (t, l') => .ok (some t, l')
    | .error e => .error e

/-- Driver: calls `tokenize` repeatedly, collecting tokens until it
returns `None`, as the repository's tests do.  Fueled. -/
def tokenizeAll : Nat → Lexer → Except String (List Token)
  | 0, _ => .error "fuel exhausted"
  | fuel + 1, l =>
    match tokenize l with
    | .ok (none, _) => .ok []
    | .ok (some t, l') =>
      match tokenizeAll fuel l' with
      | .ok ts => .ok (t :: ts)
      | .error e => .error e
    | .error e => .error e

/-- The cached-character synchronization invariant: the `character` field
holds the input character at index `current`, or `'\0'` when the cursor
sits at the end of the buffer, and the cursor is in bounds. -/
def synced (l : Lexer) : Prop :=
  l.character = (l.input.get? l.current).getD '\x00' ∧ l.current ≤ l.input.length

instance (l : Lexer) : Decidable (synced l) :=
  inferInstanceAs
    (Decidable (l.character = (l.input.get? l.current).getD '\x00' ∧
      l.current ≤ l.input.length))

/-- Concatenation, in order, of the literals of a token list. -/
def literalConcat (ts : List Token) : List Char :=
  (ts.map Token.literal).flatten

/-- Modelled from the spec: the input text with the whitespace runs
removed, the reconstruction target of the exhaustive-coverage property. -/
def stripWhitespace (input : List Char) : List Char :=
  input.filter (fun c => !isWs c)

/-- The seven reserved words named by the spec's keyword table. -/
def keywordStrings : List (List Char) :=
  [['l', 'e', 't'], ['f', 'u', 'n', 'c'], ['t', 'r', 'u', 'e'],
   ['f', 'a', 'l', 's', 'e'], ['i', 'f'], ['e', 'l', 's', 'e'],
   ['r', 'e', 't', 'u', 'r', 'n']]

/-- Whether a token kind belongs to the keyword section of the enum in
src/token.rs (`Define` through `Return`). -/
def isKeywordKind : TokenType → Bool
  | .Define => true
  | .Function => true
  | .Let => true
  | .True => true
  | .False => true
  | .If => true
  | .Else => true
  | .ElseIf => true
  | .Return => true
  | _ => false

/-- Identifier-shaped characters per the spec: ASCII letters, digits and
the underscore. -/
def isIdentChar (c : Char) : Bool :=
  isAsciiAlphabetic c || isAsciiDigit c || c = '_'

theorem advance_cases (l : Lexer) :
    (l.input.length ≤ l.current ∧ l.advance = l) ∨
    (l.current < l.input.length ∧
      l.advance =
        { input := l.input
          current := l.current + 1
          character := (l.input.get? (l.current + 1)).getD '\x00' }) := by
  unfold Lexer.advance
  split
  · exact Or.inl ⟨by omega, rfl⟩
  · exact Or.inr ⟨by omega, rfl⟩

theorem advance_input (l : Lexer) : l.advance.input = l.input := by
  rcases advance_cases l with ⟨_, h⟩ | ⟨_, h⟩ <;> rw [h]

theorem advance_mono (l : Lexer) : l.current ≤ l.advance.current := by
  rcases advance_cases l with ⟨_, h⟩ | ⟨_, h⟩ <;> rw [h]
  exact Nat.le_succ _

theorem advance_bound (l : Lexer) (h : l.current ≤ l.input.length) :
    l.advance.current ≤ l.input.length := by
  rcases advance_cases l with ⟨_, he⟩ | ⟨hlt, he⟩ <;> rw [he]
  · exact h
  · exact hlt

theorem synced_advance (l : Lexer) (h : synced l) : synced l.advance := by
  rcases advance_cases l with ⟨_, he⟩ | ⟨hlt, he⟩ <;> rw [he]
  · exact h
  · exact ⟨rfl, hlt⟩

theorem synced_new (input : List Char) (l : Lexer)
    (h : Lexer.new input = some l) : synced l := by
  unfold Lexer.new at h
  cases hg : input.get? 0 with
  | none => rw [hg] at h; exact absurd h (by simp)
  | some c =>
    rw [hg] at h
    cases h
    have hlt : 0 < input.length := by
      cases input with
      | nil => simp at hg
      | cons a as => simp
    constructor
    · show c = (input.get? 0).getD '\x00'
      rw [hg]
      rfl
    · show 0 ≤ input.length
      exact Nat.zero_le _

theorem skipWsFuel_spec (fuel : Nat) :
    ∀ l l', skipWhitespaceFuel fuel l = .ok l' →
      l'.input = l.input ∧ l.current ≤ l'.current ∧
        l'.current < l.input.length ∧ (synced l → synced l') := by
  induction fuel with
  | zero => intro l l' h; exact absurd h (by simp [skipWhitespaceFuel])
  | succ n ih =>
    intro l l' h
    unfold skipWhitespaceFuel at h
    split at h
    · exact absurd h (by simp)
    · next c hg =>
      split at h
      · obtain ⟨h1, h2, h3, h4⟩ := ih _ _ h
        rw [advance_input] at h1 h3
        exact ⟨h1, (advance_mono l).trans h2, h3,
          fun hs => h4 (synced_advance l hs)⟩
      · cases h
        have hlt : l.current < l.input.length := by
          cases hx : l.input.get? l.current with
          | none => rw [hx] at hg; cases hg
          | some d =>
            rcases List.get?_eq_some.mp hx with ⟨hh, _⟩
            exact hh
        exact ⟨rfl, Nat.le_refl _, hlt, fun hs => hs⟩

theorem skipWhitespace_spec (l l' : Lexer) (h : skipWhitespace l = .ok l') :
    l'.input = l.input ∧ l.current ≤ l'.current ∧
      l'.current < l.input.length ∧ (synced l → synced l') :=
  skipWsFuel_spec _ l l' h

theorem readIdentLoop_spec (fuel : Nat) :
    ∀ l l', readIdentLoop fuel l = some l' →
      l'.input = l.input ∧ l.current ≤ l'.current ∧
        (l.current ≤ l.input.length → l'.current ≤ l.input.length) ∧
        (synced l → synced l') := by
  induction fuel with
  | zero => intro l l' h; exact absurd h (by simp [readIdentLoop])
  | succ n ih =>
    intro l l' h
    unfold readIdentLoop at h
    split at h
    · obtain ⟨h1, h2, h3, h4⟩ := ih _ _ h
      rw [advance_input] at h1 h3
      exact ⟨h1, (advance_mono l).trans h2,
        fun hb => h3 (advance_bound l hb),
        fun hs => h4 (synced_advance l hs)⟩
    · cases h
      exact ⟨rfl, Nat.le_refl _, fun hb => hb, fun hs => hs⟩

theorem readNumberLoop_spec (fuel : Nat) :
    ∀ l l', readNumberLoop fuel l = some l' →
      l'.input = l.input ∧ l.current ≤ l'.current ∧
        (l.current ≤ l.input.length → l'.current ≤ l.input.length) ∧
        (synced l → synced l') := by
  induction fuel with
  | zero => intro l l' h; exact absurd h (by simp [readNumberLoop])
  | succ n ih =>
    intro l l' h
    unfold readNumberLoop at h
    split at h
    · obtain ⟨h1, h2, h3, h4⟩ := ih _ _ h
      rw [advance_input] at h1 h3
      exact ⟨h1, (advance_mono l).trans h2,
        fun hb => h3 (advance_bound l hb),
        fun hs => h4 (synced_advance l hs)⟩
    · cases h
      exact ⟨rfl, Nat.le_refl _, fun hb => hb, fun hs => hs⟩

theorem readIdentifier_spec (l : Lexer) (s : List Char) (l' : Lexer)
    (h : readIdentifier l = some (s, l')) :
    l'.input = l.input ∧ l.current ≤ l'.current ∧
      (l.current ≤ l.input.length → l'.current ≤ l.input.length) ∧
      (synced l → synced l') := by
  unfold readIdentifier at h
  cases hg : readIdentLoop (l.input.length + 1) l with
  | none => rw [hg] at h; exact absurd h (by simp)
  | some l2 =>
    rw [hg] at h
    have hl : l2 = l' := by
      simp only [Option.map] at h
      cases h
      rfl
    rw [← hl]
    exact readIdentLoop_spec _ l _ hg

theorem readNumber_spec (l : Lexer) (s : List Char) (l' : Lexer)
    (h : readNumber l = some (s, l')) :
    l'.input = l.input ∧ l.current ≤ l'.current ∧
      (l.current ≤ l.input.length → l'.current ≤ l.input.length) ∧
      (synced l → synced l') := by
  unfold readNumber at h
  cases hg : readNumberLoop (l.input.length + 1) l with
  | none => rw [hg] at h; exact absurd h (by simp)
  | some l2 =>
    rw [hg] at h
    have hl : l2 = l' := by
      simp only [Option.map] at h
      cases h
      rfl
    rw [← hl]
    exact readNumberLoop_spec _ l _ hg

set_option maxHeartbeats 1000000 in
theorem classify_spec (l1 : Lexer) (lit : List Char) (tt : TokenType) (l2 : Lexer)
    (h : classify l1 = .ok (lit, tt, l2)) :
    l2.input = l1.input ∧ l1.current ≤ l2.current ∧
      (l1.current ≤ l1.input.length → l2.current ≤ l1.input.length) ∧
      (synced l1 → synced l2) ∧ tt ≠ .ElseIf := by
  unfold classify at h
  by_cases hc0 : isAsciiAlphabetic l1.character
  · rw [if_pos hc0] at h
    exact absurd h (by simp)
  rw [if_neg hc0] at h
  by_cases hc1 : l1.character = '('
  · rw [if_pos hc1] at h
    obtain ⟨rfl, rfl, rfl⟩ := by simpa using h
    exact ⟨rfl, Nat.le_refl _, fun hb => hb, fun hs => hs, by decide⟩
  rw [if_neg hc1] at h
  by_cases hc2 : l1.character = ')'
  · rw [if_pos hc2] at h
    obtain ⟨rfl, rfl, rfl⟩ := by simpa using h
    exact ⟨rfl, Nat.le_refl _, fun hb => hb, fun hs => hs, by decide⟩
  rw [if_neg hc2] at h
  by_cases hc3 : l1.character = '\x7b'
  · rw [if_pos hc3] at h
    obtain ⟨rfl, rfl, rfl⟩ := by simpa using h
    exact ⟨rfl, Nat.le_refl _, fun hb => hb, fun hs => hs, by decide⟩
  rw [if_neg hc3] at h
  by_cases hc4 : l1.character = '\x7d'
  · rw [if_pos hc4] at h
    obtain ⟨rfl, rfl, rfl⟩ := by simpa using h
    exact ⟨rfl, Nat.le_refl _, fun hb => hb, fun hs => hs, by decide⟩
  rw [if_neg hc4] at h
  by_cases hc5 : l1.character = '['
  · rw [if_pos hc5] at h
    obtain ⟨rfl, rfl, rfl⟩ := by simpa using h
    exact ⟨rfl, Nat.le_refl _, fun hb => hb, fun hs => hs, by decide⟩
  rw [if_neg hc5] at h
  by_cases hc6 : l1.character = ']'
  · rw [if_pos hc6] at h
    obtain ⟨rfl, rfl, rfl⟩ := by simpa using h
    exact ⟨rfl, Nat.le_refl _, fun hb => hb, fun hs => hs, by decide⟩
  rw [if_neg hc6] at h
  by_cases hc7 : l1.character = '*'
  · rw [if_pos hc7] at h
    obtain ⟨rfl, rfl, rfl⟩ := by simpa using h
    exact ⟨rfl, Nat.le_refl _, fun hb => hb, fun hs => hs, by decide⟩
  rw [if_neg hc7] at h
  by_cases hc8 : l1.character = '>'
  · rw [if_pos hc8] at h
    obtain ⟨rfl, rfl, rfl⟩ := by simpa using h
    exact ⟨rfl, Nat.le_refl _, fun hb => hb, fun hs => hs, by decide⟩
  rw [if_neg hc8] at h
  by_cases hc9 : l1.character = '<'
  · rw [if_pos hc9] at h
    obtain ⟨rfl, rfl, rfl⟩ := by simpa using h
    exact ⟨rfl, Nat.le_refl _, fun hb => hb, fun hs => hs, by decide⟩
  rw [if_neg hc9] at h
  by_cases hc10 : l1.character = '-'
  · rw [if_pos hc10] at h
    obtain ⟨rfl, rfl, rfl⟩ := by simpa using h
    exact ⟨rfl, Nat.le_refl _, fun hb => hb, fun hs => hs, by decide⟩
  rw [if_neg hc10] at h
  by_cases hc11 : l1.character = '%'
  · rw [if_pos hc11] at h
    obtain ⟨rfl, rfl, rfl⟩ := by simpa using h
    exact ⟨rfl, Nat.le_refl _, fun hb => hb, fun hs => hs, by decide⟩
  rw [if_neg hc11] at h
  by_cases hc12 : l1.character = '+'
  · rw [if_pos hc12] at h
    obtain ⟨rfl, rfl, rfl⟩ := by simpa using h
    exact ⟨rfl, Nat.le_refl _, fun hb => hb, fun hs => hs, by decide⟩
  rw [if_neg hc12] at h
  by_cases hc13 : l1.character = '/'
  · rw [if_pos hc13] at h
    obtain ⟨rfl, rfl, rfl⟩ := by simpa using h
    exact ⟨rfl, Nat.le_refl _, fun hb => hb, fun hs => hs, by decide⟩
  rw [if_neg hc13] at h
  by_cases hc14 : l1.character = '='
  · rw [if_pos hc14] at h
    exact absurd h (by simp)
  rw [if_neg hc14] at h
  by_cases hc15 : l1.character = '!'
  · rw [if_pos hc15] at h
    exact absurd h (by simp)
  rw [if_neg hc15] at h
  by_cases hc16 : l1.character = '&'
  · rw [if_pos hc16] at h
    obtain ⟨rfl, rfl, rfl⟩ := by simpa using h
    exact ⟨rfl, Nat.le_refl _, fun hb => hb, fun hs => hs, by decide⟩
  rw [if_neg hc16] at h
  by_cases hc17 : l1.character = '@'
  · rw [if_pos hc17] at h
    obtain ⟨rfl, rfl, rfl⟩ := by simpa using h
    exact ⟨rfl, Nat.le_refl _, fun hb => hb, fun hs => hs, by decide⟩
  rw [if_neg hc17] at h
  by_cases hc18 : l1.character = '^'
  · rw [if_pos hc18] at h
    obtain ⟨rfl, rfl, rfl⟩ := by simpa using h
    exact ⟨rfl, Nat.le_refl _, fun hb => hb, fun hs => hs, by decide⟩
  rw [if_neg hc18] at h
  by_cases hc19 : l1.character = '$'
  · rw [if_pos hc19] at h
    obtain ⟨rfl, rfl, rfl⟩ := by simpa using h
    exact ⟨rfl, Nat.le_refl _, fun hb => hb, fun hs => hs, by decide⟩
  rw [if_neg hc19] at h
  by_cases hc20 : l1.character = '#'
  · rw [if_pos hc20] at h
    obtain ⟨rfl, rfl, rfl⟩ := by simpa using h
    exact ⟨rfl, Nat.le_refl _, fun hb => hb, fun hs => hs, by decide⟩
  rw [if_neg hc20] at h
  by_cases hc21 : l1.character = '~'
  · rw [if_pos hc21] at h
    obtain ⟨rfl, rfl, rfl⟩ := by simpa using h
    exact ⟨rfl, Nat.le_refl _, fun hb => hb, fun hs => hs, by decide⟩
  rw [if_neg hc21] at h
  by_cases hc22 : l1.character = ';'
  · rw [if_pos hc22] at h
    obtain ⟨rfl, rfl, rfl⟩ := by simpa using h
    exact ⟨rfl, Nat.le_refl _, fun hb => hb, fun hs => hs, by decide⟩
  rw [if_neg hc22] at h
  by_cases hc23 : l1.character = ','
  · rw [if_pos hc23] at h
    obtain ⟨rfl, rfl, rfl⟩ := by simpa using h
    exact ⟨rfl, Nat.le_refl _, fun hb => hb, fun hs => hs, by decide⟩
  rw [if_neg hc23] at h
  by_cases hc24 : l1.character = '\x00'
  · rw [if_pos hc24] at h
    obtain ⟨rfl, rfl, rfl⟩ := by simpa using h
    exact ⟨rfl, Nat.le_refl _, fun hb => hb, fun hs => hs, by decide⟩
  rw [if_neg hc24] at h
  rw [if_neg hc0] at h
  by_cases hd : isAsciiDigit l1.character
  · rw [if_pos hd] at h
    cases hr : readNumber l1 with
    | none => rw [hr] at h; exact absurd h (by simp)
    | some p =>
      obtain ⟨s, l2x⟩ := p
      rw [hr] at h
      obtain ⟨rfl, rfl, rfl⟩ := by simpa using h
      obtain ⟨r1, r2, r3, r4⟩ := readNumber_spec l1 s l2x hr
      exact ⟨r1, r2, r3, r4, by decide⟩
  · rw [if_neg hd] at h
    obtain ⟨rfl, rfl, rfl⟩ := by simpa using h
    exact ⟨rfl, Nat.le_refl _, fun hb => hb, fun hs => hs, by decide⟩

theorem lex_spec (l : Lexer) (t : Token) (l' : Lexer) (h : lex l = .ok (t, l')) :
    l'.input = l.input ∧ l.current ≤ l'.current ∧ l'.current ≤ l.input.length ∧
      (synced l → synced l') ∧ t.token_type ≠ .ElseIf := by
  unfold lex at h
  split at h
  · exact absurd h (by simp)
  · next l1 hs =>
    split at h
    · exact absurd h (by simp)
    · next lit tt l2 hc =>
      obtain ⟨rfl, rfl⟩ := by simpa using h
      obtain ⟨s1, s2, s3, s4⟩ := skipWhitespace_spec l l1 hs
      obtain ⟨c1, c2, c3, c4, c5⟩ := classify_spec l1 lit tt l2 hc
      have hb2 : l2.current ≤ l2.input.length := by
        rw [c1]
        exact c3 (by rw [s1]; exact Nat.le_of_lt s3)
      refine ⟨?_, ?_, ?_, ?_, c5⟩
      · rw [advance_input, c1, s1]
      · exact s2.trans (c2.trans (advance_mono l2))
      · have := advance_bound l2 hb2
        rw [c1, s1] at this
        exact this
      · intro hsy
        exact synced_advance l2 (c4 (s4 hsy))

theorem tokenize_spec (l : Lexer) (ot : Option Token) (l' : Lexer)
    (h : tokenize l = .ok (ot, l')) :
    (ot = none → l' = l) ∧ l.current ≤ l'.current ∧
      (l.current ≤ l.input.length → l'.current ≤ l.input.length) ∧
      l'.input = l.input ∧ (synced l → synced l') ∧
      (∀ t, ot = some t → t.token_type ≠ .ElseIf) := by
  unfold tokenize at h
  split at h
  · obtain ⟨rfl, rfl⟩ := by simpa using h
    exact ⟨fun _ => rfl, Nat.le_refl _, fun hb => hb, rfl, fun hs => hs,
      fun t ht => absurd ht (by simp)⟩
  · split at h
    · next t1 l1 hl =>
      obtain ⟨rfl, rfl⟩ := by simpa using h
      obtain ⟨a1, a2, a3, a4, a5⟩ := lex_spec l t1 l1 hl
      refine ⟨fun hn => absurd hn (by simp), a2, fun _ => a3, a1, a4, ?_⟩
      intro t ht
      obtain rfl : t1 = t := by simpa using ht
      exact a5
    · exact absurd h (by simp)

/-- C1 counterexample: `tokenize` can return a token of type `EOF` (for a
NUL character embedded in the input, here after a leading space) and the
very next call returns an `Illegal` token, not `EOF`, while the cursor
advances from 2 to 3 — so the EOF token is not a fixed point. -/
theorem c1_eof_not_fixed_point_counterexample :
    Lexer.new [' ', '\x00', '?'] =
      some { input := [' ', '\x00', '?'], current := 0, character := ' ' } ∧
    tokenize { input := [' ', '\x00', '?'], current := 0, character := ' ' } =
      .ok (some { token_type := .EOF, literal := ['\x00'] },
           { input := [' ', '\x00', '?'], current := 2, character := '?' }) ∧
    tokenize { input := [' ', '\x00', '?'], current := 2, character := '?' } =
      .ok (some { token_type := .Illegal, literal := ['?'] },
           { input := [' ', '\x00', '?'], current := 3, character := '\x00' }) ∧
    TokenType.Illegal ≠ TokenType.EOF ∧ (2 : Nat) < 3 :=
  ⟨rfl, rfl, rfl, by decide, by decide⟩

/-- C1 (amended): end of input is signalled by `tokenize` returning `None`
rather than an EOF token; once `tokenize` returns `None` the state is
unchanged and every subsequent call returns `None` again, with no panic
and no cursor movement. -/
theorem c1_none_termination_fixed_point (l l' : Lexer)
    (h : tokenize l = .ok (none, l')) :
    l' = l ∧ tokenize l' = .ok (none, l') := by
  unfold tokenize at h
  split at h
  · next hc =>
    obtain rfl : l = l' := by simpa using h
    refine ⟨rfl, ?_⟩
    unfold tokenize
    rw [if_pos hc]
  · split at h
    · exact absurd h (by simp)
    · exact absurd h (by simp)

/-- C1 witness: the amended fixed-point theorem applied at a concrete
exhausted lexer state. -/
theorem c1_none_termination_fixed_point_witness :
    tokenize { input := ['a'], current := 1, character := '\x00' } =
      .ok (none, { input := ['a'], current := 1, character := '\x00' }) ∧
    (({ input := ['a'], current := 1, character := '\x00' } : Lexer) =
        { input := ['a'], current := 1, character := '\x00' } ∧
      tokenize { input := ['a'], current := 1, character := '\x00' } =
        .ok (none, { input := ['a'], current := 1, character := '\x00' })) :=
  ⟨rfl, c1_none_termination_fixed_point _ _ rfl⟩

/-- C2: on the repository's own symbol-test input (tilde minus slash
asterisk five ampersand at caret dollar pound) the token stream drops the
ampersand (the extra `advance` after `read_number` skips it),
so concatenating the emitted literals does not reconstruct the input with
whitespace removed. -/
theorem c2_coverage_fails_on_test_input :
    Lexer.new ['~', '-', '/', '*', '5', '&', '@', '^', '$', '#'] =
      some { input := ['~', '-', '/', '*', '5', '&', '@', '^', '$', '#'],
             current := 0, character := '~' } ∧
    tokenizeAll 11 { input := ['~', '-', '/', '*', '5', '&', '@', '^', '$', '#'],
                     current := 0, character := '~' } =
      .ok [{ token_type := .Tilde, literal := ['~'] },
           { token_type := .Minus, literal := ['-'] },
           { token_type := .Slash, literal := ['/'] },
           { token_type := .Asterisk, literal := ['*'] },
           { token_type := .Number, literal := ['5'] },
           { token_type := .Asperand, literal := ['@'] },
           { token_type := .Carrot, literal := ['^'] },
           { token_type := .Dollar, literal := ['$'] },
           { token_type := .Pound, literal := ['#'] }] ∧
    literalConcat
        [{ token_type := .Tilde, literal := ['~'] },
         { token_type := .Minus, literal := ['-'] },
         { token_type := .Slash, literal := ['/'] },
         { token_type := .Asterisk, literal := ['*'] },
         { token_type := .Number, literal := ['5'] },
         { token_type := .Asperand, literal := ['@'] },
         { token_type := .Carrot, literal := ['^'] },
         { token_type := .Dollar, literal := ['$'] },
         { token_type := .Pound, literal := ['#'] }] =
      ['~', '-', '/', '*', '5', '@', '^', '$', '#'] ∧
    ['~', '-', '/', '*', '5', '@', '^', '$', '#'] ≠
      stripWhitespace ['~', '-', '/', '*', '5', '&', '@', '^', '$', '#'] :=
  ⟨rfl, rfl, rfl, by decide⟩

/-- C3: on input `"letFive"` the first `tokenize` call panics with the
`todo!()` of the `'a'..='z' | 'A'..='Z'` match arm instead of returning an
`Identifier` token — no maximal-munch identifier scan ever runs. -/
theorem c3_identifier_scan_panics :
    Lexer.new ['l', 'e', 't', 'F', 'i', 'v', 'e'] =
      some { input := ['l', 'e', 't', 'F', 'i', 'v', 'e'],
             current := 0, character := 'l' } ∧
    tokenize { input := ['l', 'e', 't', 'F', 'i', 'v', 'e'],
               current := 0, character := 'l' } =
      .error "not yet implemented" :=
  ⟨rfl, rfl⟩

/-- C4: the `'='` and `'!'` match arms are `todo!()` panics, so `"=="`,
`"="`, `"!="` and `"!"` all panic instead of producing `Equals`,
`Assignment`, `NotEquals` or `Bang` tokens. -/
theorem c4_operator_lookahead_panics :
    tokenize { input := ['=', '='], current := 0, character := '=' } =
      .error "not yet implemented: Implement `Equality` and `Assignment` tokenization" ∧
    tokenize { input := ['='], current := 0, character := '=' } =
      .error "not yet implemented: Implement `Equality` and `Assignment` tokenization" ∧
    tokenize { input := ['!', '='], current := 0, character := '!' } =
      .error "not yet implemented: Implement `Negated-Equality (or NotEquals)` tokenization" ∧
    tokenize { input := ['!'], current := 0, character := '!' } =
      .error "not yet implemented: Implement `Negated-Equality (or NotEquals)` tokenization" :=
  ⟨rfl, rfl, rfl, rfl⟩

/-- C5 counterexample: `Lexer::new` refuses the empty string — it returns
`None` instead of a lexer, contradicting the claim that construction
succeeds for every input. -/
theorem c5_empty_construction_counterexample : Lexer.new [] = none := rfl

/-- C5 (amended): construction succeeds exactly for nonempty inputs —
`Lexer::new` returns `Some` if and only if the input is nonempty, and a
successful construction stores the input unchanged with the cursor at 0. -/
theorem c5_construction_succeeds_iff_nonempty (input : List Char) :
    ((Lexer.new input).isSome ↔ input ≠ []) ∧
    (∀ l, Lexer.new input = some l → l.input = input ∧ l.current = 0) := by
  constructor
  · cases input with
    | nil => simp [Lexer.new]
    | cons a as => simp [Lexer.new]
  · intro l h
    unfold Lexer.new at h
    cases hg : input.get? 0 with
    | none => rw [hg] at h; exact absurd h (by simp)
    | some c =>
      rw [hg] at h
      cases h
      exact ⟨rfl, rfl⟩

/-- C5 witness: the amended construction theorem applied at the concrete
nonempty input `"a"`. -/
theorem c5_construction_succeeds_iff_nonempty_witness :
    (['a'] : List Char) ≠ [] ∧ (Lexer.new ['a']).isSome :=
  ⟨by decide, (c5_construction_succeeds_iff_nonempty ['a']).1.mpr (by decide)⟩

/-- C6: the claim's own example `"let x ? 5"` never reaches the `Illegal`
fallback — the first call panics on `'l'` via the `todo!()` arm — even
though an unrecognized character alone (`"?"`) does produce an `Illegal`
token carrying that character and leaves scanning able to continue. -/
theorem c6_illegal_recovery_panics_on_example :
    Lexer.new ['l', 'e', 't', ' ', 'x', ' ', '?', ' ', '5'] =
      some { input := ['l', 'e', 't', ' ', 'x', ' ', '?', ' ', '5'],
             current := 0, character := 'l' } ∧
    tokenizeAll 20 { input := ['l', 'e', 't', ' ', 'x', ' ', '?', ' ', '5'],
                     current := 0, character := 'l' } =
      .error "not yet implemented" ∧
    tokenize { input := ['?'], current := 0, character := '?' } =
      .ok (some { token_type := .Illegal, literal := ['?'] },
           { input := ['?'], current := 1, character := '\x00' }) :=
  ⟨rfl, rfl, rfl⟩

/-- C7: after lexing the digit run of `"5;"` the cursor is 2 (one past
the `';'`), not 1 (the first character after the run): the unconditional
trailing `advance` skips the `';'`, which is never emitted.  The `"-5"`
half of the claim does hold: it lexes as `Minus` then `Number("5")`. -/
theorem c7_integer_cursor_overshoot :
    Lexer.new ['5', ';'] =
      some { input := ['5', ';'], current := 0, character := '5' } ∧
    tokenize { input := ['5', ';'], current := 0, character := '5' } =
      .ok (some { token_type := .Number, literal := ['5'] },
           { input := ['5', ';'], current := 2, character := '\x00' }) ∧
    (2 : Nat) ≠ 1 ∧
    tokenizeAll 5 { input := ['5', ';'], current := 0, character := '5' } =
      .ok [{ token_type := .Number, literal := ['5'] }] ∧
    tokenizeAll 5 { input := ['-', '5'], current := 0, character := '-' } =
      .ok [{ token_type := .Minus, literal := ['-'] },
           { token_type := .Number, literal := ['5'] }] :=
  ⟨rfl, rfl, by decide, rfl, rfl⟩

/-- C8: on identifier-shaped text (letters, digits, underscores) the
keyword lookup returns a keyword kind exactly when the text equals one of
the seven reserved words, returns `Identifier` for every other such text,
and the lexer's `tokenize` never returns a token of kind `ElseIf`. -/
theorem c8_keyword_exact_match (s : List Char)
    (h : ∀ c ∈ s, isIdentChar c = true) :
    (isKeywordKind (TokenType.keyword s) = true ↔ s ∈ keywordStrings) ∧
    (s ∉ keywordStrings → TokenType.keyword s = .Identifier) ∧
    (∀ l t l', tokenize l = .ok (some t, l') → t.token_type ≠ .ElseIf) := by
  have hElse : ∀ (l : Lexer) (t : Token) (l' : Lexer),
      tokenize l = .ok (some t, l') → t.token_type ≠ .ElseIf := by
    intro l t l' ht
    exact (tokenize_spec l _ _ ht).2.2.2.2.2 t rfl
  refine ⟨?_, ?_, hElse⟩
  · unfold TokenType.keyword
    split_ifs with h1 h2 h3 h4 h5 h6 h7 h8
    · subst h1; decide
    · subst h2; decide
    · subst h3; decide
    · subst h4; decide
    · subst h5; decide
    · subst h6; decide
    · subst h7
      exact absurd (h ' ' (by decide)) (by decide)
    · subst h8; decide
    · rw [show isKeywordKind TokenType.Identifier = false from rfl]
      simp only [Bool.false_eq_true, false_iff]
      intro hmem
      simp only [keywordStrings, List.mem_cons, List.not_mem_nil, or_false] at hmem
      rcases hmem with h' | h' | h' | h' | h' | h' | h'
      exacts [h2 h', h1 h', h3 h', h4 h', h5 h', h6 h', h8 h']
  · unfold TokenType.keyword
    split_ifs with h1 h2 h3 h4 h5 h6 h7 h8
    · subst h1; intro hn; exact absurd (by decide) hn
    · subst h2; intro hn; exact absurd (by decide) hn
    · subst h3; intro hn; exact absurd (by decide) hn
    · subst h4; intro hn; exact absurd (by decide) hn
    · subst h5; intro hn; exact absurd (by decide) hn
    · subst h6; intro hn; exact absurd (by decide) hn
    · subst h7
      exact absurd (h ' ' (by decide)) (by decide)
    · subst h8; intro hn; exact absurd (by decide) hn
    · intro _; rfl

/-- C8 witness: the keyword theorem applied at the concrete
identifier-shaped text `"let"`. -/
theorem c8_keyword_exact_match_witness :
    (∀ c ∈ (['l', 'e', 't'] : List Char), isIdentChar c = true) ∧
    ((isKeywordKind (TokenType.keyword ['l', 'e', 't']) = true ↔
        ['l', 'e', 't'] ∈ keywordStrings) ∧
      ((['l', 'e', 't'] ∉ keywordStrings →
          TokenType.keyword ['l', 'e', 't'] = .Identifier) ∧
        (∀ l t l', tokenize l = .ok (some t, l') → t.token_type ≠ .ElseIf))) :=
  ⟨by decide, c8_keyword_exact_match ['l', 'e', 't'] (by decide)⟩

/-- C9: the cursor starts at 0 on construction, no operation ever
decreases it, the input buffer is never changed, and every operation keeps
an in-bounds cursor within the buffer length (the whitespace skip exits
strictly inside the buffer, so its bound needs no hypothesis). -/
theorem c9_cursor_monotone_bounded :
    (∀ input l0, Lexer.new input = some l0 →
      l0.current = 0 ∧ l0.current ≤ l0.input.length) ∧
    (∀ l : Lexer, l.current ≤ l.advance.current ∧ l.advance.input = l.input ∧
      (l.current ≤ l.input.length → l.advance.current ≤ l.input.length)) ∧
    (∀ l l', skipWhitespace l = .ok l' → l.current ≤ l'.current ∧
      l'.input = l.input ∧ l'.current ≤ l.input.length) ∧
    (∀ l s l', readIdentifier l = some (s, l') → l.current ≤ l'.current ∧
      l'.input = l.input ∧
      (l.current ≤ l.input.length → l'.current ≤ l.input.length)) ∧
    (∀ l s l', readNumber l = some (s, l') → l.current ≤ l'.current ∧
      l'.input = l.input ∧
      (l.current ≤ l.input.length → l'.current ≤ l.input.length)) ∧
    (∀ l ot l', tokenize l = .ok (ot, l') → l.current ≤ l'.current ∧
      l'.input = l.input ∧
      (l.current ≤ l.input.length → l'.current ≤ l.input.length)) := by
  refine ⟨?_, ?_, ?_, ?_, ?_, ?_⟩
  · intro input l0 h0
    unfold Lexer.new at h0
    cases hg : input.get? 0 with
    | none => rw [hg] at h0; exact absurd h0 (by simp)
    | some c =>
      rw [hg] at h0
      cases h0
      exact ⟨rfl, Nat.zero_le _⟩
  · intro l
    exact ⟨advance_mono l, advance_input l, advance_bound l⟩
  · intro l l' hs
    obtain ⟨s1, s2, s3, _⟩ := skipWhitespace_spec l l' hs
    exact ⟨s2, s1, Nat.le_of_lt s3⟩
  · intro l s l' hr
    obtain ⟨r1, r2, r3, _⟩ := readIdentifier_spec l s l' hr
    exact ⟨r2, r1, r3⟩
  · intro l s l' hr
    obtain ⟨r1, r2, r3, _⟩ := readNumber_spec l s l' hr
    exact ⟨r2, r1, r3⟩
  · intro l ot l' ht
    obtain ⟨_, a2, a3, a4, _, _⟩ := tokenize_spec l ot l' ht
    exact ⟨a2, a4, a3⟩

/-- C9 witness: the monotonicity-and-bound theorem applied at a concrete
lexer state and its `advance`. -/
theorem c9_cursor_monotone_bounded_witness :
    ({ input := ['a'], current := 0, character := 'a' } : Lexer).current ≤
      ({ input := ['a'], current := 0, character := 'a' } : Lexer).advance.current ∧
    ({ input := ['a'], current := 0, character := 'a' } : Lexer).advance.current ≤
      ({ input := ['a'], current := 0, character := 'a' } : Lexer).input.length :=
  ⟨(c9_cursor_monotone_bounded.2.1
      { input := ['a'], current := 0, character := 'a' }).1,
    (c9_cursor_monotone_bounded.2.1
      { input := ['a'], current := 0, character := 'a' }).2.2 (by decide)⟩

/-- C10: the cached-character synchronization invariant — `character`
equals the input character at index `current`, or `'\0'` at the end of
the buffer — is established by construction and preserved by `advance`
and by every cursor-moving operation. -/
theorem c10_cached_character_synced :
    (∀ input l, Lexer.new input = some l → synced l) ∧
    (∀ l, synced l → synced l.advance) ∧
    (∀ l l', skipWhitespace l = .ok l' → synced l → synced l') ∧
    (∀ l s l', readIdentifier l = some (s, l') → synced l → synced l') ∧
    (∀ l s l', readNumber l = some (s, l') → synced l → synced l') ∧
    (∀ l t l', lex l = .ok (t, l') → synced l → synced l') ∧
    (∀ l ot l', tokenize l = .ok (ot, l') → synced l → synced l') := by
  refine ⟨synced_new, synced_advance, ?_, ?_, ?_, ?_, ?_⟩
  · intro l l' hs hsy
    exact (skipWhitespace_spec l l' hs).2.2.2 hsy
  · intro l s l' hr hsy
    exact (readIdentifier_spec l s l' hr).2.2.2 hsy
  · intro l s l' hr hsy
    exact (readNumber_spec l s l' hr).2.2.2 hsy
  · intro l t l' hl hsy
    exact (lex_spec l t l' hl).2.2.2.1 hsy
  · intro l ot l' ht hsy
    exact (tokenize_spec l ot l' ht).2.2.2.2.1 hsy

/-- C10 witness: the synchronization theorem applied at a concrete synced
state and its `advance`. -/
theorem c10_cached_character_synced_witness :
    synced { input := ['a'], current := 0, character := 'a' } ∧
    synced (Lexer.advance { input := ['a'], current := 0, character := 'a' }) :=
  ⟨by decide,
    c10_cached_character_synced.2.1
      { input := ['a'], current := 0, character := 'a' } (by decide)⟩

end Plain
